import Mathlib

/-!
Verification development for the mbed Cloud JavaScript SDK.

The repository ships the `ConnectApi` notification subsystem as a typed
declaration (`ConnectApi.notify`, `startNotifications`, `stopNotifications`,
the resource operations and the private registries `_asyncFns`, `_notifyFns`,
`_pollRequest`) together with the domain model classes (`Webhook`, `Device`,
`Query`).  The bodies of the `ConnectApi` methods are not part of the
shipped sources, so they are modelled here from the specification's
description of the notification dispatch core, the polling lifecycle and the
resource operation shaping.  The domain model constructors are embedded from
their TypeScript bodies.
-/

set_option autoImplicit false

namespace MbedSDK

universe u v

/-! ### Association lists

JavaScript objects used as registries (`_asyncFns` keyed by `asyncId`,
`_notifyFns` keyed by `deviceId + path`) are embedded as association lists
in insertion order, mirroring own enumerable properties of a JS object. -/

/-- Lookup of a property: first entry with the given key, mirroring JS
property access on the embedded object. -/
def lookupKey {κ : Type u} {α : Type v} [DecidableEq κ] : List (κ × α) → κ → Option α
  | [], _ => none
  | p :: l, k => if p.1 = k then some p.2 else lookupKey l k

/-- Property assignment `o[k] = v`: overwrite the entry with key `k` when it
exists, otherwise append a new entry. -/
def setKey {κ : Type u} {α : Type v} [DecidableEq κ] : List (κ × α) → κ → α → List (κ × α)
  | [], k, v => [(k, v)]
  | p :: l, k, v => if p.1 = k then (k, v) :: l else p :: setKey l k v

/-- Property deletion `delete o[k]`: drop every entry with key `k`. -/
def removeKey {κ : Type u} {α : Type v} [DecidableEq κ] (l : List (κ × α)) (k : κ) :
    List (κ × α) :=
  l.filter (fun p => decide (p.1 ≠ k))

/-- Keys of the association list are pairwise distinct, as the own property
names of a JavaScript object are. -/
abbrev KeysNodup {κ : Type u} {α : Type v} (l : List (κ × α)) : Prop :=
  l.Pairwise (fun a b => a.1 ≠ b.1)


/-! ### Base64 payload decoding

Payload fields of notification envelopes are base64 encoded; the dispatch
core decodes them before emitting events or invoking notify-functions. -/

/-- Value of a single base64 alphabet character, `none` for a character
outside the alphabet. -/
def b64Val (c : Char) : Option Nat :=
  if 65 ≤ c.toNat ∧ c.toNat ≤ 90 then some (c.toNat - 65)
  else if 97 ≤ c.toNat ∧ c.toNat ≤ 122 then some (c.toNat - 71)
  else if 48 ≤ c.toNat ∧ c.toNat ≤ 57 then some (c.toNat + 4)
  else if c = '+' then some 62
  else if c = '/' then some 63
  else none

/-- Decode a base64 character stream, four characters at a time, into the
byte values it encodes; `none` on malformed input (bad length, bad padding
or a character outside the alphabet). -/
def b64Groups : List Char → Option (List Nat)
  | [] => some []
  | [a, b, '=', '='] => do
      let x ← b64Val a
      let y ← b64Val b
      pure [x * 4 + y / 16]
  | [a, b, c, '='] => do
      let x ← b64Val a
      let y ← b64Val b
      let z ← b64Val c
      pure [x * 4 + y / 16, (y % 16) * 16 + z / 4]
  | a :: b :: c :: d :: rest => do
      let x ← b64Val a
      let y ← b64Val b
      let z ← b64Val c
      let w ← b64Val d
      let tail ← b64Groups rest
      pure ([x * 4 + y / 16, (y % 16) * 16 + z / 4, (z % 4) * 64 + w] ++ tail)
  | _ => none

/-- Decode a base64 string into the text it encodes, `none` on malformed
input (`DecodeError` in the specification's taxonomy). -/
def decodeB64 (s : String) : Option String :=
  (b64Groups s.toList).map (fun bs => String.mk (bs.map Char.ofNat))

/-! ### Notification envelope data model

Modelled from the spec: a `NotificationEnvelope` is one inbound JSON payload
containing zero or more of the fields below; every list element is
processed independently. -/

/-- One entry of the `notifications` field: a resource value push
`{ep, path, payload(base64)}`. -/
structure NotificationData where
  ep : String
  path : String
  payload : String
deriving DecidableEq

/-- One device lifecycle event `{id, type, queueMode, resources[]}`, carried
by the `registrations`, `reg-updates`, `de-registrations` and
`registrations-expired` fields. -/
structure DeviceEvent where
  id : String
  typ : String
  queueMode : Bool
  resources : List String
deriving DecidableEq

/-- One entry of the `async-responses` field:
`{id, status, ct, payload(base64), "max-age", error}`. -/
structure AsyncResponse where
  id : String
  status : Nat
  ct : Option String
  payload : Option String
  maxAge : Option Nat
  error : Option String
deriving DecidableEq

/-- One inbound notification envelope (`NotificationObject` in the source's
typings); any combination of fields may be present, an absent field is the
empty list. -/
structure NotificationObject where
  notifications : List NotificationData
  registrations : List DeviceEvent
  regUpdates : List DeviceEvent
  deRegistrations : List DeviceEvent
  registrationsExpired : List DeviceEvent
  asyncResponses : List AsyncResponse
deriving DecidableEq

/-- Envelope with no fields present. -/
def emptyEnvelope : NotificationObject :=
  ⟨[], [], [], [], [], []⟩

/-- Envelope carrying only `async-responses` entries. -/
def asyncEnvelope (rs : List AsyncResponse) : NotificationObject :=
  ⟨[], [], [], [], [], rs⟩

/-- Decoded payload of an async response: `ct` decides text vs. numeric
vs. structured decoding. -/
inductive DecodedValue where
  | text : String → DecodedValue
  | num : Int → DecodedValue
  | structured : String → DecodedValue
deriving DecidableEq

/-- Result delivered to the pending async request: resolve with a decoded
value or reject with a payload-derived error message. -/
inductive AsyncResult where
  | resolved : DecodedValue → AsyncResult
  | rejected : String → AsyncResult
deriving DecidableEq

/-- Public events emitted by the dispatch core: `notification` carries
`{id, path, payload}` with the payload decoded; the four lifecycle events
carry the raw device-event list of their category. -/
inductive Event where
  | notification : String → String → String → Event
  | registration : List DeviceEvent → Event
  | reregistration : List DeviceEvent → Event
  | deregistration : List DeviceEvent → Event
  | expired : List DeviceEvent → Event
deriving DecidableEq

/-! ### Connect API state

Modelled from the spec: the implementation of `ConnectApi` is not among the
shipped sources (only its typed declaration is), so its private state
(`_pollRequest`, `_asyncFns`, `_notifyFns`, `handleNotifications`) and the
channel lifecycle are embedded from the specification.  Registered
callbacks are represented by numeric tags; invoking a callback is recorded
in the dispatch output rather than executed. -/

/-- Channel lifecycle state of the polling channel. -/
inductive ChannelState where
  | stopped
  | starting
  | polling
  | stopping
deriving DecidableEq

/-- State of one `ConnectApi` instance: channel state, the
`handleNotifications` flag, the single `_pollRequest` slot (number of
outstanding poll HTTP requests), whether a next poll timer is scheduled,
the pending-async-request registry `_asyncFns` and the per-resource
subscription registry `_notifyFns`. -/
structure ConnectState where
  channel : ChannelState
  handleNotifications : Bool
  pollInFlight : Nat
  pollScheduled : Bool
  asyncFns : List (String × Nat)
  notifyFns : List ((String × String) × Nat)
deriving DecidableEq

/-- Freshly constructed instance: channel stopped, no outstanding poll, no
scheduled poll, empty registries, `handleNotifications` off. -/
def initState : ConnectState :=
  ⟨ChannelState.stopped, false, 0, false, [], []⟩

/-! ### Notification dispatch core (`ConnectApi.notify`) -/

/-- Output of one `notify` call: the events emitted, the completions
delivered to pending async requests (id paired with resolve/reject result)
and the invocations of registered per-resource notify-functions (key paired
with the decoded payload). -/
structure NotifyOutput where
  events : List Event
  completions : List (String × AsyncResult)
  notifyCalls : List ((String × String) × String)
deriving DecidableEq

/-- Modelled from the spec: a `notifications` entry whose payload decodes
and whose `(deviceId, path)` has a registered notify-function produces one
invocation of that function with the decoded value; a malformed entry is
skipped (per-entry failures are isolated). -/
def notifCall (fns : List ((String × String) × Nat)) (n : NotificationData) :
    Option ((String × String) × String) :=
  match decodeB64 n.payload with
  | none => none
  | some v =>
    match lookupKey fns (n.ep, n.path) with
    | some _ => some ((n.ep, n.path), v)
    | none => none

/-- Modelled from the spec: a `notifications` entry whose payload decodes
emits a generic `notification` event carrying `{id, path, payload}` with
the payload decoded; a malformed entry is skipped. -/
def notifEvent (n : NotificationData) : Option Event :=
  (decodeB64 n.payload).map (fun v => Event.notification n.ep n.path v)

/-- Modelled from the spec: a nonempty device lifecycle category emits the
correspondingly named event carrying the raw device-event list. -/
def categoryEvents (env : NotificationObject) : List Event :=
  (if env.registrations = [] then [] else [Event.registration env.registrations])
  ++ (if env.regUpdates = [] then [] else [Event.reregistration env.regUpdates])
  ++ (if env.deRegistrations = [] then [] else [Event.deregistration env.deRegistrations])
  ++ (if env.registrationsExpired = [] then []
      else [Event.expired env.registrationsExpired])

/-- Whether an HTTP status indicates success. -/
def statusOk (s : Nat) : Bool :=
  decide (200 ≤ s ∧ s < 300)

/-- Modelled from the spec: `ct` decides text vs. numeric vs. structured
decoding of a successful async response's base64 payload; an absent or
undecodable payload decodes to the empty text. -/
def decodePayload (ct : Option String) (payload : Option String) : DecodedValue :=
  match payload with
  | none => DecodedValue.text ""
  | some b64 =>
    match decodeB64 b64 with
    | none => DecodedValue.text ""
    | some raw =>
      match ct with
      | some "application/json" => DecodedValue.structured raw
      | some "application/vnd.oma.lwm2m+json" => DecodedValue.structured raw
      | some "application/vnd.oma.lwm2m+tlv" =>
        match raw.toInt? with
        | some n => DecodedValue.num n
        | none => DecodedValue.text raw
      | _ => DecodedValue.text raw

/-- Modelled from the spec: the error message derived from a failed async
response's payload, falling back to its status. -/
def payloadError (r : AsyncResponse) : String :=
  match r.error with
  | some e => e
  | none => "status " ++ toString r.status

/-- Modelled from the spec: completing an async response resolves with the
decoded payload when `error` is absent and `status` indicates success, and
rejects with a payload-derived error otherwise. -/
def asyncResult (r : AsyncResponse) : AsyncResult :=
  if r.error = none ∧ statusOk r.status then
    AsyncResult.resolved (decodePayload r.ct r.payload)
  else
    AsyncResult.rejected (payloadError r)

/-- Modelled from the spec: process the `async-responses` entries in order;
an entry whose `id` is registered removes that registration and completes
it exactly once, an entry whose `id` is unknown is silently dropped. -/
def processAsyncs : List (String × Nat) → List AsyncResponse →
    List (String × Nat) × List (String × AsyncResult)
  | fns, [] => (fns, [])
  | fns, r :: rs =>
    match lookupKey fns r.id with
    | some _ =>
      let step := processAsyncs (removeKey fns r.id) rs
      (step.1, (r.id, asyncResult r) :: step.2)
    | none => processAsyncs fns rs

/-- Modelled from the spec (`ConnectApi.notify`): demultiplex one envelope —
decode and dispatch each `notifications` entry, emit the lifecycle category
events, and complete matching pending async requests, removing them from
the registry.  Side effects only: registry mutation and event emission. -/
def notify (st : ConnectState) (env : NotificationObject) :
    ConnectState × NotifyOutput :=
  let nEvents := env.notifications.filterMap notifEvent
  let nCalls := env.notifications.filterMap (notifCall st.notifyFns)
  let asyncStep := processAsyncs st.asyncFns env.asyncResponses
  ({ st with asyncFns := asyncStep.1 },
   ⟨nEvents ++ categoryEvents env, asyncStep.2, nCalls⟩)

/-! ### Channel lifecycle (`startNotifications`, `stopNotifications`) -/

/-- Result surfaced by `startNotifications`. -/
inductive StartResult where
  | ok
  | alreadyActive
  | transportError
deriving DecidableEq

/-- Modelled from the spec (`ConnectApi.startNotifications`): fails with
`AlreadyActiveError` when the channel is not stopped, leaving the state
unchanged; otherwise issues the long-poll registration request (`httpOk`
abstracts its outcome): on success the channel becomes `polling`,
`handleNotifications` is set and the first poll is scheduled; on failure
the channel returns to `stopped` and the transport error is surfaced. -/
def startNotifications (st : ConnectState) (httpOk : Bool) :
    ConnectState × StartResult :=
  if st.channel ≠ ChannelState.stopped then
    (st, StartResult.alreadyActive)
  else if httpOk then
    ({ st with
        channel := ChannelState.polling
        handleNotifications := true
        pollScheduled := true },
     StartResult.ok)
  else
    (st, StartResult.transportError)

/-- Modelled from the spec (`ConnectApi.stopNotifications`): resolves
silently when the channel is not polling; otherwise deregisters,
transitions to `stopped`, cancels the scheduled next poll and clears the
single `_pollRequest` slot, leaving `handleNotifications` untouched. -/
def stopNotifications (st : ConnectState) : ConnectState :=
  if st.channel ≠ ChannelState.polling then st
  else
    { st with
        channel := ChannelState.stopped
        pollScheduled := false
        pollInFlight := 0 }

/-! ### Resource operation shaping -/

/-- Outcome of an async resource operation whose HTTP response carried an
`{asyncId}`. -/
inductive OpOutcome where
  | deferred : String → OpOutcome
  | immediate : String → OpOutcome
deriving DecidableEq

/-- Modelled from the spec: when an async resource operation's HTTP
response is `{asyncId}`, and `handleNotifications` is true, a pending
request (represented by `tag`) is registered under that id and the call
stays pending; when `handleNotifications` is false the call resolves
immediately with the bare `asyncId` string and no registry entry is
created. -/
def handleAsyncResponse (st : ConnectState) (asyncId : String) (tag : Nat) :
    ConnectState × OpOutcome :=
  if st.handleNotifications then
    ({ st with asyncFns := setKey st.asyncFns asyncId tag },
     OpOutcome.deferred asyncId)
  else
    (st, OpOutcome.immediate asyncId)

/-- Modelled from the spec (`ConnectApi.getResourceValue`), async branch:
the response carried `{asyncId}` and is handled by `handleAsyncResponse`. -/
def getResourceValue (st : ConnectState) (asyncId : String) (tag : Nat) :
    ConnectState × OpOutcome :=
  handleAsyncResponse st asyncId tag

/-- Modelled from the spec (`ConnectApi.setResourceValue`), async branch:
the response carried `{asyncId}` and is handled by `handleAsyncResponse`. -/
def setResourceValue (st : ConnectState) (asyncId : String) (tag : Nat) :
    ConnectState × OpOutcome :=
  handleAsyncResponse st asyncId tag

/-- Modelled from the spec (`ConnectApi.executeResource`), async branch:
the response carried `{asyncId}` and is handled by `handleAsyncResponse`. -/
def executeResource (st : ConnectState) (asyncId : String) (tag : Nat) :
    ConnectState × OpOutcome :=
  handleAsyncResponse st asyncId tag

/-- Modelled from the spec (`ConnectApi.deleteResource`), async branch:
the response carried `{asyncId}` and is handled by `handleAsyncResponse`. -/
def deleteResource (st : ConnectState) (asyncId : String) (tag : Nat) :
    ConnectState × OpOutcome :=
  handleAsyncResponse st asyncId tag

/-- Modelled from the spec (`ConnectApi.addResourceSubscription`): register
the per-resource notify-function first (overwriting any previous one for
the same `(deviceId, path)`), then issue the subscribe request, whose
`{asyncId}` response is handled by `handleAsyncResponse`. -/
def addResourceSubscription (st : ConnectState) (deviceId path : String)
    (fnTag : Nat) (asyncId : String) (reqTag : Nat) : ConnectState × OpOutcome :=
  handleAsyncResponse
    { st with notifyFns := setKey st.notifyFns (deviceId, path) fnTag }
    asyncId reqTag

/-- Modelled from the spec (`ConnectApi.deleteResourceSubscription`): drop
the notify-function registered for `(deviceId, path)`. -/
def deleteResourceSubscription (st : ConnectState) (deviceId path : String) :
    ConnectState :=
  { st with notifyFns := removeKey st.notifyFns (deviceId, path) }

/-- Modelled from the spec (`ConnectApi.deleteDeviceSubscriptions`): drop
every notify-function registered for the device. -/
def deleteDeviceSubscriptions (st : ConnectState) (deviceId : String) :
    ConnectState :=
  { st with notifyFns := st.notifyFns.filter (fun q => decide (q.1.1 ≠ deviceId)) }

/-- Modelled from the spec (`ConnectApi.deleteSubscriptions`): drop every
registered notify-function. -/
def deleteSubscriptions (st : ConnectState) : ConnectState :=
  { st with notifyFns := [] }

/-! ### Instance lifecycle as a transition system

Modelled from the spec: the polling loop issues a poll only when one is
scheduled, schedules the next poll only once the previous completed or
failed (and only while the channel is still polling), and is cancelled by
`stopNotifications`. -/

/-- One observable step of a `ConnectApi` instance. -/
inductive Step : ConnectState → ConnectState → Prop where
  | start (st : ConnectState) (httpOk : Bool) :
      Step st (startNotifications st httpOk).1
  | stop (st : ConnectState) :
      Step st (stopNotifications st)
  | pollIssue (st : ConnectState) (h : st.pollScheduled = true) :
      Step st { st with pollScheduled := false, pollInFlight := st.pollInFlight + 1 }
  | pollComplete (st : ConnectState) (env : NotificationObject)
      (h : 0 < st.pollInFlight) :
      Step st { (notify st env).1 with
                  pollInFlight := st.pollInFlight - 1
                  pollScheduled := decide (st.channel = ChannelState.polling) }
  | pollFail (st : ConnectState) (h : 0 < st.pollInFlight) :
      Step st { st with
                  pollInFlight := st.pollInFlight - 1
                  pollScheduled := decide (st.channel = ChannelState.polling) }
  | notifyInbound (st : ConnectState) (env : NotificationObject) :
      Step st (notify st env).1
  | asyncOp (st : ConnectState) (asyncId : String) (tag : Nat) :
      Step st (handleAsyncResponse st asyncId tag).1
  | subscribe (st : ConnectState) (deviceId path : String) (fnTag : Nat)
      (asyncId : String) (reqTag : Nat) :
      Step st (addResourceSubscription st deviceId path fnTag asyncId reqTag).1
  | unsubscribe (st : ConnectState) (deviceId path : String) :
      Step st (deleteResourceSubscription st deviceId path)
  | unsubscribeDevice (st : ConnectState) (deviceId : String) :
      Step st (deleteDeviceSubscriptions st deviceId)
  | unsubscribeAll (st : ConnectState) :
      Step st (deleteSubscriptions st)

/-- States reachable from a freshly constructed instance. -/
inductive Reachable : ConnectState → Prop where
  | base : Reachable initState
  | step {s s' : ConnectState} : Reachable s → Step s s' → Reachable s'

/-! ### Domain model constructors (`Webhook`, `Device`, `Query`)

Embedded from the TypeScript bodies, which are identical in all three
classes:

`constructor(init?) { for(var key in init) { this[key] = init[key]; } }`

An object is its list of own enumerable properties in insertion order;
`init` is `none` for an absent argument and otherwise the list of its own
enumerable key/value pairs, whose keys are distinct.  `Device` and `Query`
additionally take a `private _api` constructor parameter, assigned to
`this._api` before the loop runs. -/

section Constructors

variable {α : Type u}

/-- Body of the shared constructor: starting from the fields already on
`this`, assign `this[key] = init[key]` for each key of `init` in order;
with no `init` argument the loop does not run. -/
def constructObj (base : List (String × α)) (init : Option (List (String × α))) :
    List (String × α) :=
  match init with
  | none => base
  | some kvs => kvs.foldl (fun o p => setKey o p.1 p.2) base

/-- The `Webhook` constructor: `this` starts with no fields. -/
def webhookConstruct (init : Option (List (String × α))) : List (String × α) :=
  constructObj [] init

/-- The `Device` constructor: `this` starts with the `_api` parameter
property, then copies `init`. -/
def deviceConstruct (api : α) (init : Option (List (String × α))) :
    List (String × α) :=
  constructObj [("_api", api)] init

/-- The `Query` constructor: same body as the `Device` constructor. -/
def queryConstruct (api : α) (init : Option (List (String × α))) :
    List (String × α) :=
  constructObj [("_api", api)] init

end Constructors

/-! ### Invariants and example data -/

/-- Poll bookkeeping invariant: the outstanding poll requests together with
a scheduled next poll never exceed one, and outside the polling state there
is no outstanding and no scheduled poll. -/
def PollInv (st : ConnectState) : Prop :=
  st.pollInFlight + (if st.pollScheduled then 1 else 0) ≤ 1
  ∧ (st.channel ≠ ChannelState.polling →
      st.pollInFlight = 0 ∧ st.pollScheduled = false)

/-- Combined instance invariant: poll bookkeeping plus uniqueness of the
subscription registry keys. -/
def Inv (st : ConnectState) : Prop :=
  PollInv st ∧ KeysNodup st.notifyFns

/-- Envelope carrying only `notifications` entries. -/
def notifEnvelope (ns : List NotificationData) : NotificationObject :=
  ⟨ns, [], [], [], [], []⟩

/-- A polling instance with the pending async request `"123"` registered. -/
def examplePendingState : ConnectState :=
  ⟨ChannelState.polling, true, 0, false, [("123", 7)], []⟩

/-- A successful async response for id `"123"` with status 200. -/
def exampleAsyncOk : AsyncResponse :=
  ⟨"123", 200, none, none, none, none⟩

/-- An async response whose id `"999"` matches no pending request. -/
def exampleUnknownAsync : AsyncResponse :=
  ⟨"999", 200, none, none, none, none⟩

/-- A polling instance subscribed to resource `3200/0/5500` of `dev1`. -/
def exampleSubscribedState : ConnectState :=
  ⟨ChannelState.polling, true, 0, false, [], [(("dev1", "3200/0/5500"), 0)]⟩

/-- The notification entry of Scenario A: base64 payload decoding to
`"Change me!"`. -/
def exampleNotification : NotificationData :=
  ⟨"dev1", "3200/0/5500", "Q2hhbmdlIG1lIQ=="⟩

/-- A notification entry with a malformed base64 payload. -/
def exampleBadNotification : NotificationData :=
  ⟨"dev1", "3200/0/5500", "!!"⟩

/-- An instance in the middle of polling with a poll scheduled. -/
def examplePollingState : ConnectState :=
  ⟨ChannelState.polling, true, 0, true, [], []⟩

section AssocLemmas

variable {κ : Type u} {α : Type v} [DecidableEq κ]

theorem lookupKey_setKey_self (l : List (κ × α)) (k : κ) (v : α) :
    lookupKey (setKey l k v) k = some v := by
  induction l with
  | nil => simp [setKey, lookupKey]
  | cons p l ih =>
    by_cases h : p.1 = k
    · simp [setKey, h, lookupKey]
    · simp [setKey, h, lookupKey, ih]

theorem lookupKey_setKey_ne (l : List (κ × α)) (k k' : κ) (v : α) (h : k' ≠ k) :
    lookupKey (setKey l k v) k' = lookupKey l k' := by
  induction l with
  | nil => simp [setKey, lookupKey, Ne.symm h]
  | cons p l ih =>
    by_cases hp : p.1 = k
    · subst hp
      simp [setKey, lookupKey, Ne.symm h]
    · by_cases hp' : p.1 = k'
      · simp [setKey, hp, lookupKey, hp', h]
      · simp [setKey, hp, lookupKey, hp', ih]

theorem lookupKey_removeKey_self (l : List (κ × α)) (k : κ) :
    lookupKey (removeKey l k) k = none := by
  induction l with
  | nil => simp [removeKey, lookupKey]
  | cons p l ih =>
    by_cases h : p.1 = k
    · simpa [removeKey, List.filter, h] using ih
    · simpa [removeKey, List.filter, h, lookupKey] using ih

theorem lookupKey_removeKey_ne (l : List (κ × α)) (k k' : κ) (h : k' ≠ k) :
    lookupKey (removeKey l k) k' = lookupKey l k' := by
  induction l with
  | nil => simp [removeKey, lookupKey]
  | cons p l ih =>
    by_cases hp : p.1 = k
    · subst hp
      simpa [removeKey, List.filter, lookupKey, Ne.symm h] using ih
    · by_cases hp' : p.1 = k'
      · simp [removeKey, List.filter, hp, lookupKey, hp', h]
      · simpa [removeKey, List.filter, hp, lookupKey, hp'] using ih

theorem mem_setKey (l : List (κ × α)) (k : κ) (v : α) (b : κ × α)
    (hb : b ∈ setKey l k v) : b ∈ l ∨ b = (k, v) := by
  induction l with
  | nil => simpa [setKey] using hb
  | cons p l ih =>
    by_cases hp : p.1 = k
    · simp only [setKey, hp, if_true] at hb
      rcases List.mem_cons.mp hb with h' | h'
      · right; exact h'
      · left; exact List.mem_cons_of_mem _ h'
    · simp only [setKey, hp, if_false] at hb
      rcases List.mem_cons.mp hb with h' | h'
      · left; exact h' ▸ List.mem_cons_self _ _
      · rcases ih h' with h'' | h''
        · left; exact List.mem_cons_of_mem _ h''
        · right; exact h''

theorem keysNodup_setKey (l : List (κ × α)) (k : κ) (v : α) (h : KeysNodup l) :
    KeysNodup (setKey l k v) := by
  induction l with
  | nil => simp [setKey, KeysNodup]
  | cons p l ih =>
    have hp := (List.pairwise_cons.mp h).1
    have hl := (List.pairwise_cons.mp h).2
    by_cases hk : p.1 = k
    · subst hk
      simp only [setKey, if_pos rfl]
      exact List.pairwise_cons.mpr ⟨fun b hb => hp b hb, hl⟩
    · have hrest : KeysNodup (setKey l k v) := ih hl
      simp only [setKey, hk, if_false]
      refine List.pairwise_cons.mpr ⟨?_, hrest⟩
      intro b hb
      rcases mem_setKey l k v b hb with h' | h'
      · exact hp b h'
      · subst h'
        simpa using hk

end AssocLemmas

/-! ### Dispatch lemmas -/

theorem processAsyncs_not_registered (rs : List AsyncResponse)
    (fns : List (String × Nat)) (id : String)
    (h : lookupKey fns id = none) :
    ((processAsyncs fns rs).2.filter (fun c => decide (c.1 = id))) = []
    ∧ lookupKey (processAsyncs fns rs).1 id = none := by
  induction rs generalizing fns with
  | nil => simpa [processAsyncs] using h
  | cons r rs ih =>
    cases hr : lookupKey fns r.id with
    | none =>
      simpa [processAsyncs, hr] using ih fns h
    | some t =>
      have hne : r.id ≠ id := by
        intro he
        rw [he, h] at hr
        exact Option.noConfusion hr
      have h' : lookupKey (removeKey fns r.id) id = none := by
        rw [lookupKey_removeKey_ne fns r.id id (Ne.symm hne)]
        exact h
      have := ih (removeKey fns r.id) h'
      simp only [processAsyncs, hr]
      refine ⟨?_, this.2⟩
      simpa [List.filter, hne] using this.1

theorem processAsyncs_registered (rs : List AsyncResponse)
    (fns : List (String × Nat)) (id : String) (r : AsyncResponse)
    (hreg : (lookupKey fns id).isSome)
    (hfind : rs.find? (fun x => decide (x.id = id)) = some r) :
    ((processAsyncs fns rs).2.filter (fun c => decide (c.1 = id)))
      = [(id, asyncResult r)]
    ∧ lookupKey (processAsyncs fns rs).1 id = none := by
  induction rs generalizing fns with
  | nil => simp [List.find?] at hfind
  | cons r' rs ih =>
    by_cases h1 : r'.id = id
    · subst h1
      have hr' : r = r' := by
        simp [List.find?_cons] at hfind
        exact hfind.symm
      subst hr'
      obtain ⟨t, ht⟩ := Option.isSome_iff_exists.mp hreg
      have hrm : lookupKey (removeKey fns r.id) r.id = none :=
        lookupKey_removeKey_self fns r.id
      have hrest := processAsyncs_not_registered rs (removeKey fns r.id) r.id hrm
      simp only [processAsyncs, ht]
      refine ⟨?_, hrest.2⟩
      simp [List.filter, hrest.1]
    · have hfind' : rs.find? (fun x => decide (x.id = id)) = some r := by
        simpa [List.find?_cons, h1] using hfind
      cases hr : lookupKey fns r'.id with
      | none =>
        simpa [processAsyncs, hr] using ih fns hreg hfind'
      | some t =>
        have hreg' : (lookupKey (removeKey fns r'.id) id).isSome := by
          rw [lookupKey_removeKey_ne fns r'.id id (Ne.symm h1)]
          exact hreg
        have := ih (removeKey fns r'.id) hreg' hfind'
        simp only [processAsyncs, hr]
        refine ⟨?_, this.2⟩
        simpa [List.filter, h1] using this.1

theorem notifCall_count (fns : List ((String × String) × Nat)) (d p : String)
    (t : Nat) (h : lookupKey fns (d, p) = some t) (l : List NotificationData) :
    ((l.filterMap (notifCall fns)).filter (fun c => decide (c.1 = (d, p)))).length
    = (l.filter (fun n => decide (n.ep = d ∧ n.path = p)
        && (decodeB64 n.payload).isSome)).length := by
  induction l with
  | nil => simp
  | cons n l ih =>
    cases hv : decodeB64 n.payload with
    | none =>
      simp [notifCall, hv, List.filterMap_cons, List.filter_cons, ih]
    | some v =>
      by_cases hk : n.ep = d ∧ n.path = p
      · have hpair : (n.ep, n.path) = (d, p) := by rw [hk.1, hk.2]
        simp [notifCall, hv, hpair, h, List.filterMap_cons, List.filter_cons, hk, ih]
      · have hne : (n.ep, n.path) ≠ (d, p) := by
          intro he
          exact hk ⟨congrArg Prod.fst he, congrArg Prod.snd he⟩
        cases hl : lookupKey fns (n.ep, n.path) with
        | none =>
          simp [notifCall, hv, hl, List.filterMap_cons, List.filter_cons, hk, ih]
        | some t' =>
          simp [notifCall, hv, hl, List.filterMap_cons, List.filter_cons, hk, hne, ih]

theorem step_preserves_pollInv {s t : ConnectState} (hs : Step s t)
    (h : PollInv s) : PollInv t := by
  simp only [PollInv] at h
  obtain ⟨h1, h2⟩ := h
  cases hs with
  | start httpOk =>
    by_cases hc : s.channel = ChannelState.stopped
    · have hnp : ¬ s.channel = ChannelState.polling := by rw [hc]; decide
      obtain ⟨hf, hsch⟩ := h2 hnp
      cases httpOk with
      | true =>
        refine ⟨?_, ?_⟩
        · simp [startNotifications, hc, hf]
        · intro hx
          simp [startNotifications, hc] at hx
      | false =>
        have he : (startNotifications s false).1 = s := by
          simp [startNotifications, hc]
        rw [he]
        exact ⟨h1, h2⟩
    · have he : (startNotifications s httpOk).1 = s := by
        simp [startNotifications, hc]
      rw [he]
      exact ⟨h1, h2⟩
  | stop =>
    by_cases hc : s.channel = ChannelState.polling
    · refine ⟨?_, ?_⟩
      · simp [stopNotifications, hc]
      · intro hx
        simp [stopNotifications, hc]
    · have he : stopNotifications s = s := by
        simp [stopNotifications, hc]
      rw [he]
      exact ⟨h1, h2⟩
  | pollIssue hp =>
    have hpol : s.channel = ChannelState.polling := by
      by_contra hx
      rw [(h2 hx).2] at hp
      exact Bool.noConfusion hp
    rw [hp] at h1
    simp only [if_pos] at h1
    have hf : s.pollInFlight = 0 := by omega
    refine ⟨?_, ?_⟩
    · simp [hf]
    · intro hx
      exact absurd hpol hx
  | pollComplete env hin =>
    have hpol : s.channel = ChannelState.polling := by
      by_contra hx
      have := (h2 hx).1
      omega
    have hle : s.pollInFlight ≤ 1 := by
      cases hsch : s.pollScheduled
      · rw [hsch] at h1
        simpa using h1
      · rw [hsch] at h1
        simp at h1
        omega
    refine ⟨?_, ?_⟩
    · simp [hpol]
      omega
    · intro hx
      exact absurd hpol hx
  | pollFail hin =>
    have hpol : s.channel = ChannelState.polling := by
      by_contra hx
      have := (h2 hx).1
      omega
    have hle : s.pollInFlight ≤ 1 := by
      cases hsch : s.pollScheduled
      · rw [hsch] at h1
        simpa using h1
      · rw [hsch] at h1
        simp at h1
        omega
    refine ⟨?_, ?_⟩
    · simp [hpol]
      omega
    · intro hx
      exact absurd hpol hx
  | notifyInbound env =>
    exact ⟨h1, h2⟩
  | asyncOp asyncId tag =>
    by_cases hh : s.handleNotifications
    · have he : (handleAsyncResponse s asyncId tag).1
          = { s with asyncFns := setKey s.asyncFns asyncId tag } := by
        simp [handleAsyncResponse, hh]
      rw [he]
      exact ⟨h1, h2⟩
    · have he : (handleAsyncResponse s asyncId tag).1 = s := by
        simp [handleAsyncResponse, hh]
      rw [he]
      exact ⟨h1, h2⟩
  | subscribe deviceId path fnTag asyncId reqTag =>
    by_cases hh : s.handleNotifications
    · have he : (addResourceSubscription s deviceId path fnTag asyncId reqTag).1
          = { s with notifyFns := setKey s.notifyFns (deviceId, path) fnTag,
                     asyncFns := setKey s.asyncFns asyncId reqTag } := by
        simp [addResourceSubscription, handleAsyncResponse, hh]
      rw [he]
      exact ⟨h1, h2⟩
    · have he : (addResourceSubscription s deviceId path fnTag asyncId reqTag).1
          = { s with notifyFns := setKey s.notifyFns (deviceId, path) fnTag } := by
        simp [addResourceSubscription, handleAsyncResponse, hh]
      rw [he]
      exact ⟨h1, h2⟩
  | unsubscribe deviceId path =>
    exact ⟨h1, h2⟩
  | unsubscribeDevice deviceId =>
    exact ⟨h1, h2⟩
  | unsubscribeAll =>
    exact ⟨h1, h2⟩

theorem step_preserves_keysNodup {s t : ConnectState} (hs : Step s t)
    (h : KeysNodup s.notifyFns) : KeysNodup t.notifyFns := by
  cases hs with
  | start httpOk =>
    by_cases hc : s.channel = ChannelState.stopped
    · cases httpOk with
      | true => simpa [startNotifications, hc] using h
      | false => simpa [startNotifications, hc] using h
    · simpa [startNotifications, hc] using h
  | stop =>
    by_cases hc : s.channel = ChannelState.polling
    · simpa [stopNotifications, hc] using h
    · simpa [stopNotifications, hc] using h
  | pollIssue hp => exact h
  | pollComplete env hin => exact h
  | pollFail hin => exact h
  | notifyInbound env => exact h
  | asyncOp asyncId tag =>
    by_cases hh : s.handleNotifications
    · simpa [handleAsyncResponse, hh] using h
    · simpa [handleAsyncResponse, hh] using h
  | subscribe deviceId path fnTag asyncId reqTag =>
    have hset : KeysNodup (setKey s.notifyFns (deviceId, path) fnTag) :=
      keysNodup_setKey s.notifyFns (deviceId, path) fnTag h
    by_cases hh : s.handleNotifications
    · simpa [addResourceSubscription, handleAsyncResponse, hh] using hset
    · simpa [addResourceSubscription, handleAsyncResponse, hh] using hset
  | unsubscribe deviceId path =>
    exact List.Pairwise.sublist (List.filter_sublist _) h
  | unsubscribeDevice deviceId =>
    exact List.Pairwise.sublist (List.filter_sublist _) h
  | unsubscribeAll =>
    exact List.Pairwise.nil

theorem reachable_pollInv {s : ConnectState} (h : Reachable s) : PollInv s := by
  induction h with
  | base =>
    simp [PollInv, initState]
  | step hr hs ih => exact step_preserves_pollInv hs ih

theorem reachable_keysNodup {s : ConnectState} (h : Reachable s) :
    KeysNodup s.notifyFns := by
  induction h with
  | base => exact List.Pairwise.nil
  | step hr hs ih => exact step_preserves_keysNodup hs ih

theorem setKey_length_of_mem {κ : Type u} {α : Type v} [DecidableEq κ]
    (l : List (κ × α)) (k : κ) (v : α) (h : (lookupKey l k).isSome) :
    (setKey l k v).length = l.length := by
  induction l with
  | nil => simp [lookupKey] at h
  | cons p l ih =>
    by_cases hp : p.1 = k
    · simp [setKey, hp]
    · have h' : (lookupKey l k).isSome := by
        simpa [lookupKey, hp] using h
      simp [setKey, hp, ih h']

/-! ### Claim theorems -/

/-- C1: for every notification envelope containing an `async-responses`
entry whose id matches a registered pending async request, `notify`
completes that request exactly once — resolving with the decoded payload
when `error` is absent and `status` indicates success, rejecting with a
payload-derived error otherwise (both captured by `asyncResult`) — and
afterwards the pending-request registry no longer contains that id. -/
theorem notify_completes_matching_async_exactly_once
    (st : ConnectState) (env : NotificationObject) (id : String)
    (r : AsyncResponse)
    (hreg : (lookupKey st.asyncFns id).isSome)
    (hfind : env.asyncResponses.find? (fun x => decide (x.id = id)) = some r) :
    ((notify st env).2.completions.filter (fun c => decide (c.1 = id)))
      = [(id, asyncResult r)]
    ∧ lookupKey (notify st env).1.asyncFns id = none := by
  have h := processAsyncs_registered env.asyncResponses st.asyncFns id r hreg hfind
  simpa [notify] using h

/-- Witness for C1 at Scenario B's data: pending id `"123"`, envelope with
a status-200 entry for it. -/
theorem notify_completes_matching_async_exactly_once_witness :
    ((notify examplePendingState (asyncEnvelope [exampleAsyncOk])).2.completions.filter
        (fun c => decide (c.1 = "123")))
      = [("123", asyncResult exampleAsyncOk)]
    ∧ lookupKey (notify examplePendingState
        (asyncEnvelope [exampleAsyncOk])).1.asyncFns "123" = none :=
  notify_completes_matching_async_exactly_once examplePendingState
    (asyncEnvelope [exampleAsyncOk]) "123" exampleAsyncOk (by decide) (by decide)

/-- C4: an `async-responses` entry whose id matches no registered pending
request is silently dropped by `notify`: no completion is delivered for
that id, the registry still has no entry for it, and an envelope holding
only that entry changes nothing and emits nothing. -/
theorem notify_drops_unknown_async_response
    (st : ConnectState) (env : NotificationObject) (r : AsyncResponse)
    (hun : lookupKey st.asyncFns r.id = none) :
    ((notify st env).2.completions.filter (fun c => decide (c.1 = r.id))) = []
    ∧ lookupKey (notify st env).1.asyncFns r.id = none
    ∧ notify st (asyncEnvelope [r]) = (st, ⟨[], [], []⟩) := by
  have h := processAsyncs_not_registered env.asyncResponses st.asyncFns r.id hun
  refine ⟨by simpa [notify] using h.1, by simpa [notify] using h.2, ?_⟩
  simp [notify, asyncEnvelope, processAsyncs, hun, categoryEvents]

/-- Witness for C4: id `"999"` is not pending, its entry is dropped. -/
theorem notify_drops_unknown_async_response_witness :
    ((notify examplePendingState
        (asyncEnvelope [exampleUnknownAsync])).2.completions.filter
        (fun c => decide (c.1 = exampleUnknownAsync.id))) = []
    ∧ lookupKey (notify examplePendingState
        (asyncEnvelope [exampleUnknownAsync])).1.asyncFns exampleUnknownAsync.id = none
    ∧ notify examplePendingState (asyncEnvelope [exampleUnknownAsync])
        = (examplePendingState, ⟨[], [], []⟩) :=
  notify_drops_unknown_async_response examplePendingState
    (asyncEnvelope [exampleUnknownAsync]) exampleUnknownAsync (by decide)

/-- C2: every `notifications` entry whose base64 payload decodes produces a
generic `notification` event carrying `{id, path, payload}` with the
payload decoded, and when a notify-function is registered for its
`(deviceId, path)` it is invoked once per such entry: the recorded
invocations for that key are exactly as many as the decodable entries for
that key in the envelope. -/
theorem notify_dispatches_notification_entries
    (st : ConnectState) (env : NotificationObject) (n : NotificationData)
    (v : String)
    (hn : n ∈ env.notifications)
    (hv : decodeB64 n.payload = some v) :
    Event.notification n.ep n.path v ∈ (notify st env).2.events
    ∧ ∀ t : Nat, lookupKey st.notifyFns (n.ep, n.path) = some t →
        ((n.ep, n.path), v) ∈ (notify st env).2.notifyCalls
        ∧ (((notify st env).2.notifyCalls.filter
              (fun c => decide (c.1 = (n.ep, n.path)))).length
            = (env.notifications.filter
                (fun m => decide (m.ep = n.ep ∧ m.path = n.path)
                  && (decodeB64 m.payload).isSome)).length) := by
  constructor
  · have he : notifEvent n = some (Event.notification n.ep n.path v) := by
      simp [notifEvent, hv]
    have : Event.notification n.ep n.path v ∈ env.notifications.filterMap notifEvent :=
      List.mem_filterMap.mpr ⟨n, hn, he⟩
    simpa [notify] using List.mem_append_left (categoryEvents env) this
  · intro t ht
    constructor
    · have hc : notifCall st.notifyFns n = some ((n.ep, n.path), v) := by
        simp [notifCall, hv, ht]
      have : ((n.ep, n.path), v) ∈ env.notifications.filterMap (notifCall st.notifyFns) :=
        List.mem_filterMap.mpr ⟨n, hn, hc⟩
      simpa [notify] using this
    · have := notifCall_count st.notifyFns n.ep n.path t ht env.notifications
      simpa [notify] using this

/-- Witness for C2 at Scenario A: with no subscription registered, the
envelope carrying the single entry with payload `"Q2hhbmdlIG1lIQ=="` still
emits a `notification` event decoding to `"Change me!"`; with a
notify-function registered for that `(deviceId, path)`, it is additionally
invoked exactly once. -/
theorem notify_dispatches_notification_entries_witness :
    Event.notification "dev1" "3200/0/5500" "Change me!"
      ∈ (notify initState (notifEnvelope [exampleNotification])).2.events
    ∧ (("dev1", "3200/0/5500"), "Change me!")
      ∈ (notify exampleSubscribedState (notifEnvelope [exampleNotification])).2.notifyCalls
    ∧ (((notify exampleSubscribedState
          (notifEnvelope [exampleNotification])).2.notifyCalls.filter
          (fun c => decide (c.1 = ("dev1", "3200/0/5500")))).length
        = ((notifEnvelope [exampleNotification]).notifications.filter
            (fun m => decide (m.ep = "dev1" ∧ m.path = "3200/0/5500")
              && (decodeB64 m.payload).isSome)).length) := by
  have h1 := notify_dispatches_notification_entries initState
    (notifEnvelope [exampleNotification]) exampleNotification "Change me!"
    (by decide) (by decide)
  have h2 := notify_dispatches_notification_entries exampleSubscribedState
    (notifEnvelope [exampleNotification]) exampleNotification "Change me!"
    (by decide) (by decide)
  have h3 := h2.2 0 (by decide)
  exact ⟨h1.1, h3.1, h3.2⟩

/-- C3: after a successful `startNotifications`, a second call without an
intervening `stopNotifications` fails with `AlreadyActiveError` and leaves
the state — in particular the channel state — unchanged, whatever the
second registration request would have returned. -/
theorem startNotifications_twice_already_active
    (st : ConnectState) (ok1 ok2 : Bool)
    (h : (startNotifications st ok1).2 = StartResult.ok) :
    startNotifications (startNotifications st ok1).1 ok2
      = ((startNotifications st ok1).1, StartResult.alreadyActive) := by
  by_cases hc : st.channel = ChannelState.stopped
  · cases ok1 with
    | true => simp [startNotifications, hc]
    | false => simp [startNotifications, hc] at h
  · simp [startNotifications, hc] at h

/-- Witness for C3: starting from a fresh instance, the first start
succeeds and the second fails with `AlreadyActiveError`. -/
theorem startNotifications_twice_already_active_witness :
    startNotifications (startNotifications initState true).1 true
      = ((startNotifications initState true).1, StartResult.alreadyActive) :=
  startNotifications_twice_already_active initState true true (by decide)

/-- C8: `stopNotifications` never modifies the `handleNotifications` flag,
in every channel state; when the channel was polling it transitions to
`stopped` and cancels the scheduled next poll. -/
theorem stopNotifications_preserves_handleNotifications (st : ConnectState) :
    (stopNotifications st).handleNotifications = st.handleNotifications
    ∧ (st.channel = ChannelState.polling →
        (stopNotifications st).channel = ChannelState.stopped
        ∧ (stopNotifications st).pollScheduled = false) := by
  by_cases hc : st.channel = ChannelState.polling
  · simp [stopNotifications, hc]
  · simp [stopNotifications, hc]

/-- Witness for C8 at a polling instance with the flag set. -/
theorem stopNotifications_preserves_handleNotifications_witness :
    (stopNotifications examplePollingState).handleNotifications
        = examplePollingState.handleNotifications
    ∧ ((stopNotifications examplePollingState).channel = ChannelState.stopped
        ∧ (stopNotifications examplePollingState).pollScheduled = false) :=
  ⟨(stopNotifications_preserves_handleNotifications examplePollingState).1,
   (stopNotifications_preserves_handleNotifications examplePollingState).2 (by decide)⟩

/-- C7: for every async resource operation whose HTTP response is an
`{asyncId}` (all four delegate to `handleAsyncResponse`): with
`handleNotifications` true a pending request is registered under that id
and stays pending until a later `notify` completes it (removing the
registration); with `handleNotifications` false the call resolves
immediately with the bare id and the state is untouched. -/
theorem async_op_follows_handleNotifications
    (st : ConnectState) (id : String) (tag : Nat) :
    (st.handleNotifications = true →
        lookupKey (handleAsyncResponse st id tag).1.asyncFns id = some tag
        ∧ (handleAsyncResponse st id tag).2 = OpOutcome.deferred id
        ∧ ∀ r : AsyncResponse, r.id = id → r.error = none →
            statusOk r.status = true →
            (notify (handleAsyncResponse st id tag).1
                (asyncEnvelope [r])).2.completions
              = [(id, AsyncResult.resolved (decodePayload r.ct r.payload))]
            ∧ lookupKey (notify (handleAsyncResponse st id tag).1
                (asyncEnvelope [r])).1.asyncFns id = none)
    ∧ (st.handleNotifications = false →
        (handleAsyncResponse st id tag).1 = st
        ∧ (handleAsyncResponse st id tag).2 = OpOutcome.immediate id)
    ∧ getResourceValue st id tag = handleAsyncResponse st id tag
    ∧ setResourceValue st id tag = handleAsyncResponse st id tag
    ∧ executeResource st id tag = handleAsyncResponse st id tag
    ∧ deleteResource st id tag = handleAsyncResponse st id tag := by
  refine ⟨?_, ?_, rfl, rfl, rfl, rfl⟩
  · intro h
    have hs : (handleAsyncResponse st id tag).1.asyncFns = setKey st.asyncFns id tag := by
      simp [handleAsyncResponse, h]
    refine ⟨?_, by simp [handleAsyncResponse, h], ?_⟩
    · rw [hs]
      exact lookupKey_setKey_self _ _ _
    · intro r hrid herr hstat
      have hlook : lookupKey (handleAsyncResponse st id tag).1.asyncFns r.id = some tag := by
        rw [hs, hrid]
        exact lookupKey_setKey_self _ _ _
      have hres : asyncResult r = AsyncResult.resolved (decodePayload r.ct r.payload) := by
        simp [asyncResult, herr, hstat]
      rw [hrid] at hlook
      constructor
      · simp [notify, asyncEnvelope, processAsyncs, hrid, hlook, hres]
      · simp only [notify, asyncEnvelope, processAsyncs, hrid, hlook]
        exact lookupKey_removeKey_self _ _
  · intro h
    simp [handleAsyncResponse, h]

/-- Witness for C7 at Scenario B's data: `handleNotifications` is on, the
operation returns asyncId `"123"`, a pending request is registered, and the
later status-200 response resolves it. -/
theorem async_op_follows_handleNotifications_witness :
    lookupKey (handleAsyncResponse examplePollingState "123" 7).1.asyncFns "123" = some 7
    ∧ (handleAsyncResponse examplePollingState "123" 7).2 = OpOutcome.deferred "123"
    ∧ ((notify (handleAsyncResponse examplePollingState "123" 7).1
          (asyncEnvelope [exampleAsyncOk])).2.completions
        = [("123", AsyncResult.resolved
            (decodePayload exampleAsyncOk.ct exampleAsyncOk.payload))]
        ∧ lookupKey (notify (handleAsyncResponse examplePollingState "123" 7).1
            (asyncEnvelope [exampleAsyncOk])).1.asyncFns "123" = none) := by
  have h := (async_op_follows_handleNotifications examplePollingState "123" 7).1 rfl
  exact ⟨h.1, h.2.1, h.2.2 exampleAsyncOk rfl rfl (by decide)⟩

/-- C9: a `notifications` entry whose payload fails to decode is skipped
without aborting the envelope: `notify` on the envelope equals `notify` on
the same envelope with the failing entry absent, so every other entry is
processed identically, and no exception escapes (`notify` is total). -/
theorem notify_isolates_entry_failures
    (st : ConnectState) (env : NotificationObject)
    (pre post : List NotificationData) (bad : NotificationData)
    (hbad : decodeB64 bad.payload = none)
    (henv : env.notifications = pre ++ bad :: post) :
    notify st env = notify st { env with notifications := pre ++ post } := by
  have hev : notifEvent bad = none := by simp [notifEvent, hbad]
  have hcall : notifCall st.notifyFns bad = none := by simp [notifCall, hbad]
  simp [notify, henv, List.filterMap_append, List.filterMap_cons, hev, hcall,
    categoryEvents]

/-- Witness for C9: a malformed entry ahead of Scenario A's entry changes
nothing about the processing of the latter. -/
theorem notify_isolates_entry_failures_witness :
    notify exampleSubscribedState
        (notifEnvelope [exampleBadNotification, exampleNotification])
      = notify exampleSubscribedState (notifEnvelope [exampleNotification]) :=
  notify_isolates_entry_failures exampleSubscribedState
    (notifEnvelope [exampleBadNotification, exampleNotification])
    [] [exampleNotification] exampleBadNotification (by decide) rfl

/-- C6: in every reachable state of the instance lifecycle at most one poll
HTTP request is outstanding, and a next poll is scheduled only when none is
outstanding — so a poll is never issued before the previous one completed
or failed. -/
theorem polling_at_most_one_outstanding (st : ConnectState) (h : Reachable st) :
    st.pollInFlight ≤ 1
    ∧ (st.pollScheduled = true → st.pollInFlight = 0) := by
  have hp := reachable_pollInv h
  simp only [PollInv] at hp
  obtain ⟨h1, h2⟩ := hp
  constructor
  · cases hsch : st.pollScheduled
    · rw [hsch] at h1
      simpa using h1
    · rw [hsch] at h1
      simp at h1
      omega
  · intro hsch
    rw [hsch] at h1
    simp at h1
    omega

/-- Witness for C6 at the reachable state right after a successful
`startNotifications`. -/
theorem polling_at_most_one_outstanding_witness :
    (startNotifications initState true).1.pollInFlight ≤ 1
    ∧ ((startNotifications initState true).1.pollScheduled = true →
        (startNotifications initState true).1.pollInFlight = 0) :=
  polling_at_most_one_outstanding (startNotifications initState true).1
    (Reachable.step Reachable.base (Step.start initState true))

/-- C5: in every reachable state the subscription registry holds at most
one notify-function per `(deviceId, path)` key; this is preserved by
`addResourceSubscription`, which moreover overwrites the registered
function — afterwards the key maps to the new function and, when the key
was already subscribed, the registry has not grown. -/
theorem subscription_registry_at_most_one_per_key
    (st : ConnectState) (deviceId path : String) (fnTag : Nat)
    (asyncId : String) (reqTag : Nat) (h : Reachable st) :
    KeysNodup st.notifyFns
    ∧ KeysNodup (addResourceSubscription st deviceId path
        fnTag asyncId reqTag).1.notifyFns
    ∧ lookupKey (addResourceSubscription st deviceId path
        fnTag asyncId reqTag).1.notifyFns (deviceId, path) = some fnTag
    ∧ ((lookupKey st.notifyFns (deviceId, path)).isSome →
        (addResourceSubscription st deviceId path
            fnTag asyncId reqTag).1.notifyFns.length
          = st.notifyFns.length) := by
  have hfns : (addResourceSubscription st deviceId path
      fnTag asyncId reqTag).1.notifyFns
      = setKey st.notifyFns (deviceId, path) fnTag := by
    by_cases hh : st.handleNotifications
    · simp [addResourceSubscription, handleAsyncResponse, hh]
    · simp [addResourceSubscription, handleAsyncResponse, hh]
  refine ⟨reachable_keysNodup h, ?_, ?_, ?_⟩
  · exact step_preserves_keysNodup
      (Step.subscribe st deviceId path fnTag asyncId reqTag)
      (reachable_keysNodup h)
  · rw [hfns]
    exact lookupKey_setKey_self _ _ _
  · intro hsome
    rw [hfns]
    exact setKey_length_of_mem st.notifyFns (deviceId, path) fnTag hsome

/-- Witness for C5 at a reachable state that is already subscribed to the
key being re-subscribed: the function is overwritten, the registry does not
grow. -/
theorem subscription_registry_at_most_one_per_key_witness :
    KeysNodup (addResourceSubscription initState "dev1" "3200/0/5500"
        0 "7" 3).1.notifyFns
    ∧ KeysNodup (addResourceSubscription (addResourceSubscription initState
        "dev1" "3200/0/5500" 0 "7" 3).1 "dev1" "3200/0/5500" 1 "8" 4).1.notifyFns
    ∧ lookupKey (addResourceSubscription (addResourceSubscription initState
        "dev1" "3200/0/5500" 0 "7" 3).1 "dev1" "3200/0/5500" 1 "8" 4).1.notifyFns
        ("dev1", "3200/0/5500") = some 1
    ∧ (addResourceSubscription (addResourceSubscription initState
        "dev1" "3200/0/5500" 0 "7" 3).1 "dev1" "3200/0/5500" 1 "8" 4).1.notifyFns.length
        = (addResourceSubscription initState "dev1" "3200/0/5500" 0 "7" 3).1.notifyFns.length := by
  have h := subscription_registry_at_most_one_per_key
    (addResourceSubscription initState "dev1" "3200/0/5500" 0 "7" 3).1
    "dev1" "3200/0/5500" 1 "8" 4
    (Reachable.step Reachable.base
      (Step.subscribe initState "dev1" "3200/0/5500" 0 "7" 3))
  exact ⟨h.1, h.2.1, h.2.2.1, h.2.2.2 (by decide)⟩

theorem constructObj_lookup_frame {α : Type v} (l base : List (String × α))
    (k : String) (h : lookupKey l k = none) :
    lookupKey (constructObj base (some l)) k = lookupKey base k := by
  induction l generalizing base with
  | nil => simp [constructObj]
  | cons q l ih =>
    have hq : q.1 ≠ k := by
      intro he
      simp [lookupKey, he] at h
    have hl : lookupKey l k = none := by
      simpa [lookupKey, hq] using h
    have hstep : constructObj base (some (q :: l))
        = constructObj (setKey base q.1 q.2) (some l) := by
      simp [constructObj]
    rw [hstep, ih (setKey base q.1 q.2) hl,
      lookupKey_setKey_ne base q.1 k q.2 (Ne.symm hq)]

theorem mem_keys_of_lookupKey {κ : Type u} {α : Type v} [DecidableEq κ]
    (l : List (κ × α)) (k : κ) (v : α) (h : lookupKey l k = some v) :
    ∃ q ∈ l, q.1 = k := by
  induction l with
  | nil => simp [lookupKey] at h
  | cons p l ih =>
    by_cases hp : p.1 = k
    · exact ⟨p, List.mem_cons_self _ _, hp⟩
    · have h' : lookupKey l k = some v := by
        simpa [lookupKey, hp] using h
      obtain ⟨q, hq, hqk⟩ := ih h'
      exact ⟨q, List.mem_cons_of_mem _ hq, hqk⟩

theorem constructObj_lookup_of_init {α : Type v} (kvs base : List (String × α))
    (k : String) (v : α) (hk : KeysNodup kvs)
    (h : lookupKey kvs k = some v) :
    lookupKey (constructObj base (some kvs)) k = some v := by
  induction kvs generalizing base with
  | nil => simp [lookupKey] at h
  | cons p l ih =>
    have hp := (List.pairwise_cons.mp hk).1
    have hl := (List.pairwise_cons.mp hk).2
    have hstep : constructObj base (some (p :: l))
        = constructObj (setKey base p.1 p.2) (some l) := by
      simp [constructObj]
    rw [hstep]
    by_cases hpk : p.1 = k
    · have hv : v = p.2 := by
        simp [lookupKey, hpk] at h
        exact h.symm
      have hnone : lookupKey l k = none := by
        cases hc : lookupKey l k with
        | none => rfl
        | some w =>
          obtain ⟨q, hq, hqk⟩ := mem_keys_of_lookupKey l k w hc
          exact absurd (hpk.trans hqk.symm) (hp q hq)
      rw [constructObj_lookup_frame l (setKey base p.1 p.2) k hnone, hpk,
        lookupKey_setKey_self base k p.2, hv]
    · have h' : lookupKey l k = some v := by
        simpa [lookupKey, hpk] using h
      exact ih (setKey base p.1 p.2) hl h'

/-- C10: the `Query`, `Device` and `Webhook` constructors copy exactly the
own enumerable keys of `init` onto the new instance and are total (no
throw): a field present in `init` ends up with that value, a data field
absent from `init` stays undefined, and with no `init` argument all data
fields are undefined (`Device`/`Query` only carry the `_api` constructor
parameter). -/
theorem model_constructors_copy_init {α : Type v} (api : α)
    (kvs : List (String × α)) (k : String) (v : α) (hk : KeysNodup kvs) :
    (lookupKey kvs k = some v →
        lookupKey (webhookConstruct (some kvs)) k = some v
        ∧ lookupKey (deviceConstruct api (some kvs)) k = some v
        ∧ lookupKey (queryConstruct api (some kvs)) k = some v)
    ∧ (lookupKey kvs k = none →
        lookupKey (webhookConstruct (some kvs)) k = none
        ∧ (k ≠ "_api" →
            lookupKey (deviceConstruct api (some kvs)) k = none
            ∧ lookupKey (queryConstruct api (some kvs)) k = none))
    ∧ webhookConstruct (none : Option (List (String × α))) = []
    ∧ deviceConstruct api none = [("_api", api)]
    ∧ queryConstruct api none = [("_api", api)] := by
  refine ⟨?_, ?_, rfl, rfl, rfl⟩
  · intro h
    exact ⟨constructObj_lookup_of_init kvs [] k v hk h,
      constructObj_lookup_of_init kvs [("_api", api)] k v hk h,
      constructObj_lookup_of_init kvs [("_api", api)] k v hk h⟩
  · intro h
    refine ⟨?_, ?_⟩
    · rw [webhookConstruct, constructObj_lookup_frame kvs [] k h]
      rfl
    · intro hne
      have hb : lookupKey [("_api", api)] k = none := by
        simp [lookupKey, Ne.symm hne]
      constructor
      · rw [deviceConstruct, constructObj_lookup_frame kvs [("_api", api)] k h, hb]
      · rw [queryConstruct, constructObj_lookup_frame kvs [("_api", api)] k h, hb]

/-- Witness for C10: a two-field `init` is copied onto all three
constructors, a missing key stays undefined, and the no-argument `Device`
construction carries only `_api`. -/
theorem model_constructors_copy_init_witness :
    lookupKey (webhookConstruct (some [("url", "cb"), ("id", "q1")])) "url"
        = some "cb"
    ∧ lookupKey (deviceConstruct "api0" (some [("url", "cb"), ("id", "q1")])) "url"
        = some "cb"
    ∧ lookupKey (queryConstruct "api0" (some [("url", "cb"), ("id", "q1")])) "url"
        = some "cb"
    ∧ lookupKey (deviceConstruct "api0" (some [("url", "cb"), ("id", "q1")])) "missing"
        = none
    ∧ deviceConstruct "api0" (none : Option (List (String × String)))
        = [("_api", "api0")] := by
  have h := model_constructors_copy_init "api0" [("url", "cb"), ("id", "q1")]
    "url" "cb" (by decide)
  have h2 := model_constructors_copy_init "api0" [("url", "cb"), ("id", "q1")]
    "missing" "cb" (by decide)
  have hc := h.1 (by decide)
  exact ⟨hc.1, hc.2.1, hc.2.2, ((h2.2.1 (by decide)).2 (by decide)).1, h.2.2.2.1⟩

end MbedSDK
